import Mathlib

/-!
Verification of the media upload pipeline (validator, compressor, binary
encoder, quota guard, retry uploader) against its natural-language
specification.  All definitions are shallow embeddings of the TypeScript
source: `validateImageFile`, `extractExtensionFromUri`, `getMimeType`,
`uploadWithRetry` and `uploadImageToSupabase` from the upload module,
`compressImage` from the image processor, `checkStorageLimit` from the
storage-limit module and `getUserStorageUsage` from the storage-monitoring
module.  JavaScript numbers are embedded as `ℚ` where fractional values can
arise (file sizes, ratios) and as `ℕ`/`ℤ` where the source only produces
integers.
-/

namespace Rutinutl
/-! ## Retry uploader (`uploadWithRetry`)

The source loops `for (attempt = 0; attempt < maxRetries; attempt++)`,
calling the object store once per iteration.  On a failed attempt with
`attempt < maxRetries - 1` it sleeps `min(1000 * 2^attempt, 5000)`
milliseconds; after the loop it throws an error reporting `maxRetries`
attempts.  The store's behaviour is abstracted as `store : ℕ → Bool`
(`true` = the call with that index succeeds).  The loop is embedded with an
explicit fuel argument equal to `maxRetries - attempt`; `uploadWithRetry`
starts it at `attempt = 0`, `fuel = maxRetries`.  The result records the
outcome (`Except ℕ Unit`, the error carrying the attempt count the thrown
message reports), the list of store calls made (each recording the path and
byte buffer passed), and the list of sleep delays in order. -/

/-- One recorded call to the object store: the destination path and the
byte buffer passed to `supabase.storage.from(bucket).upload`. -/
structure StoreCallRec where
  path : String
  bytes : List ℕ
  deriving DecidableEq, Repr

/-- The backoff delay the source computes after failed attempt `attempt`:
`Math.min(1000 * Math.pow(2, attempt), 5000)`. -/
def backoffDelay (attempt : ℕ) : ℕ := min (1000 * 2 ^ attempt) 5000

/-- The retry loop body of `uploadWithRetry`, with `fuel = maxRetries - attempt`
remaining iterations.  Each iteration calls the store with the same `pb`
(path and bytes); on failure it sleeps `backoffDelay attempt` when
`attempt < maxRetries - 1`. -/
def retryGo (store : ℕ → Bool) (pb : StoreCallRec) (maxRetries : ℕ) :
    ℕ → ℕ → Except ℕ Unit × List StoreCallRec × List ℕ
  | _, 0 => (.error maxRetries, [], [])
  | attempt, fuel + 1 =>
    if store attempt then (.ok (), [pb], [])
    else
      let rest := retryGo store pb maxRetries (attempt + 1) fuel
      (rest.1, pb :: rest.2.1,
        (if attempt < maxRetries - 1 then [backoffDelay attempt] else []) ++ rest.2.2)

/-- `uploadWithRetry(bucket, path, data, contentType, maxRetries, onProgress)`:
the loop entered at `attempt = 0` with `maxRetries` iterations available. -/
def uploadWithRetry (store : ℕ → Bool) (pb : StoreCallRec) (maxRetries : ℕ) :
    Except ℕ Unit × List StoreCallRec × List ℕ :=
  retryGo store pb maxRetries 0 maxRetries

/-! ## Validator (`validateImageFile`, `extractExtensionFromUri`, `getMimeType`)

`VALIDATION_CONFIG` from the upload module: 10 MB size ceiling, the
extension allow-list and the MIME allow-list. -/

/-- `VALIDATION_CONFIG.maxSizeBytes = 10 * 1024 * 1024`. -/
def maxSizeBytes : ℚ := 10 * 1024 * 1024

/-- `VALIDATION_CONFIG.allowedFormats`. -/
def allowedFormats : List String := ["jpg", "jpeg", "png", "webp", "gif"]

/-- `VALIDATION_CONFIG.allowedMimeTypes`. -/
def allowedMimeTypes : List String :=
  ["image/jpeg", "image/jpg", "image/png", "image/webp", "image/gif"]

/-- JavaScript `str.split('.')` on the underlying character list: always
returns at least one (possibly empty) segment. -/
def splitOnDot : List Char → List (List Char)
  | [] => [[]]
  | c :: rest =>
    if c = '.' then [] :: splitOnDot rest
    else
      match splitOnDot rest with
      | [] => [[c]]
      | seg :: segs => (c :: seg) :: segs

/-- ASCII lowercasing of one character, as `String.prototype.toLowerCase`
acts on the ASCII range the pipeline deals with. -/
def lowerChar (c : Char) : Char :=
  if 'A' ≤ c ∧ c ≤ 'Z' then Char.ofNat (c.toNat + 32) else c

/-- `str.toLowerCase()` (ASCII). -/
def lowerStr (s : String) : String := String.mk (s.data.map lowerChar)

/-- `uri.split('.').pop()`: the trailing `.`-separated segment. -/
def lastSegment (uri : String) : String :=
  String.mk ((splitOnDot uri.data).getLastD [])

/-- `extractExtensionFromUri`: take the trailing `.`-separated segment of the
URI, lowercased (`uri.split('.').pop()?.toLowerCase() || 'jpg'`, where the
empty string falls back to `'jpg'`), then coerce anything outside the valid
extension list to `'jpg'`
(`validExtensions.includes(ext) ? ext : 'jpg'`). -/
def extractExtensionFromUri (uri : String) : String :=
  let raw := lowerStr (lastSegment uri)
  let ext := if raw = "" then "jpg" else raw
  if allowedFormats.contains ext then ext else "jpg"

/-- `getMimeType`: look the lowercased extension up in the `mimeTypes` record,
defaulting to `image/jpeg`. -/
def getMimeType (extension : String) : String :=
  let e := lowerStr extension
  if e = "jpg" then "image/jpeg"
  else if e = "jpeg" then "image/jpeg"
  else if e = "png" then "image/png"
  else if e = "webp" then "image/webp"
  else if e = "gif" then "image/gif"
  else "image/jpeg"

/-- The distinct error messages `validateImageFile` can construct, by branch:
the `Invalid file format` message, the `Invalid MIME type` message, the
`File is empty (0 bytes)` message and the `File too large` message (which
cites the size in MB and the 10 MB maximum). -/
inductive ValidationError where
  | invalidFormat
  | invalidMime (mimeType : String)
  | emptyFile
  | tooLarge (sizeBytes : ℚ)
  deriving DecidableEq, Repr

/-- Result record of `validateImageFile`: `{ valid: boolean; error?: string }`. -/
structure ValidationResult where
  valid : Bool
  error : Option ValidationError
  deriving DecidableEq, Repr

/-- `validateImageFile(uri, fileSize?, mimeType?)`: checks, in order, the
extension extracted from the URI against the allow-list, the lowercased
declared MIME type (when supplied) against the MIME allow-list, and the
declared size (when supplied) for emptiness and the 10 MB ceiling. -/
def validateImageFile (uri : String) (fileSize : Option ℚ) (mimeType : Option String) :
    ValidationResult :=
  let extension := extractExtensionFromUri uri
  if ¬ allowedFormats.contains extension then
    ⟨false, some .invalidFormat⟩
  else if mimeType.isSome ∧ ¬ allowedMimeTypes.contains (lowerStr (mimeType.getD "")) then
    ⟨false, some (.invalidMime (mimeType.getD ""))⟩
  else
    match fileSize with
    | none => ⟨true, none⟩
    | some s =>
      if s = 0 then ⟨false, some .emptyFile⟩
      else if s > maxSizeBytes then ⟨false, some (.tooLarge s)⟩
      else ⟨true, none⟩

/-! ## Quota guard (`checkStorageLimit`, `getUserStorageUsage`)

`STORAGE_LIMITS` from the storage-limit module: 100 MB total ceiling, 10 MB
per-file ceiling, 80 % warning threshold.  The two error messages and the
warning message are embedded as tagged values carrying the numbers the
source interpolates into the strings. -/

/-- `STORAGE_LIMITS.MAX_TOTAL_STORAGE_BYTES = 100 * 1024 * 1024`. -/
def maxTotalStorageBytes : ℚ := 100 * 1024 * 1024

/-- `STORAGE_LIMITS.MAX_FILE_SIZE_BYTES = 10 * 1024 * 1024`. -/
def maxFileSizeBytes : ℚ := 10 * 1024 * 1024

/-- `STORAGE_LIMITS.WARNING_THRESHOLD_PERCENT = 80`. -/
def warningThresholdPercent : ℚ := 80

/-- The two rejection messages `checkStorageLimit` can build, with the
numbers the source interpolates (sizes in MB). -/
inductive StorageMessage where
  | fileTooLarge (fileSizeMB : ℚ)
  | notEnoughSpace (fileSizeMB availableMB : ℚ)
  deriving DecidableEq

/-- The non-fatal warning message, with the remaining-headroom numbers the
source interpolates. -/
inductive StorageWarning where
  | remainingHeadroom (remainingMB freePercent : ℚ)
  deriving DecidableEq

/-- Result record of `checkStorageLimit`. -/
structure StorageCheckResult where
  allowed : Bool
  currentUsage : ℚ
  availableSpace : ℚ
  fileSize : ℚ
  message : Option StorageMessage
  warningMessage : Option StorageWarning
  deriving DecidableEq

/-- `checkStorageLimit(userId, fileSizeBytes)` with the usage total already
fetched (the source awaits `getUserStorageUsage` first): rejects a file over
the per-file ceiling, then rejects if the total ceiling would be exceeded,
and otherwise allows, attaching a warning when the post-upload usage
percentage reaches the warning threshold. -/
def checkStorageLimit (currentTotalBytes : ℚ) (fileSizeBytes : ℚ) : StorageCheckResult :=
  let availableSpace := maxTotalStorageBytes - currentTotalBytes
  let wouldExceedLimit := currentTotalBytes + fileSizeBytes > maxTotalStorageBytes
  if fileSizeBytes > maxFileSizeBytes then
    ⟨false, currentTotalBytes, availableSpace, fileSizeBytes,
      some (.fileTooLarge (fileSizeBytes / (1024 * 1024))), none⟩
  else if wouldExceedLimit then
    ⟨false, currentTotalBytes, availableSpace, fileSizeBytes,
      some (.notEnoughSpace (fileSizeBytes / (1024 * 1024)) (availableSpace / (1024 * 1024))),
      none⟩
  else
    let newUsagePercent := (currentTotalBytes + fileSizeBytes) / maxTotalStorageBytes * 100
    let warningMessage :=
      if newUsagePercent ≥ warningThresholdPercent then
        some (.remainingHeadroom ((availableSpace - fileSizeBytes) / (1024 * 1024))
          (100 - newUsagePercent))
      else none
    ⟨true, currentTotalBytes, availableSpace, fileSizeBytes, none, warningMessage⟩

/-! ## Storage usage (`getUserStorageUsage`)

The usage ledger is queried twice (`storage_images` rows and `tools` rows
with a positive `file_size`).  A query that errors yields `data = null`; the
source logs the error and carries on, and the surrounding `try`/`catch`
returns zero usage on a thrown exception.  Each query result is embedded as
`Option (List (Option ℕ))`: `none` for an errored query (null data, the same
shape the catch-all produces), and each row's `file_size` as an
`Option ℕ` (`null` sizes count as 0 via `img.file_size || 0`). -/

/-- Result record of `getUserStorageUsage` (the human-readable `totalSize`
string is omitted; the claims only concern the numeric fields). -/
structure StorageUsage where
  fileCount : ℕ
  totalSizeBytes : ℕ
  deriving DecidableEq

/-- `images?.reduce((sum, img) => sum + (img.file_size || 0), 0) || 0`:
sum of the row sizes, 0 for an errored query. -/
def rowsSizeSum (rows : Option (List (Option ℕ))) : ℕ :=
  match rows with
  | none => 0
  | some l => l.foldl (fun s r => s + r.getD 0) 0

/-- `images?.length || 0`. -/
def rowsCount (rows : Option (List (Option ℕ))) : ℕ :=
  match rows with
  | none => 0
  | some l => l.length

/-- `getUserStorageUsage(userId)` as a function of the two ledger query
results: file counts and byte totals are summed across the two queries, and
an errored query contributes zero. -/
def getUserStorageUsage (images tools : Option (List (Option ℕ))) : StorageUsage :=
  ⟨rowsCount images + rowsCount tools, rowsSizeSum images + rowsSizeSum tools⟩

/-! ## Compressor (`compressImage`)

After the initial re-encode at the configured quality, the source compares
the intrinsic dimensions against the profile's maxima.  If either exceeds
its maximum it pushes a single resize action computed from the uniform
ratio `Math.min(maxWidth / width, maxHeight / height)`, rounding each target
dimension with `Math.round`; otherwise no resize action is pushed and the
dimensions are unchanged. -/

/-- JavaScript `Math.round` for the non-negative values arising here:
round half away from zero, i.e. `⌊x + 1/2⌋`. -/
def jsRound (q : ℚ) : ℤ := ⌊q + 1 / 2⌋

/-- The resize action `compressImage` pushes: `some (newWidth, newHeight)`
when `currentWidth > opts.maxWidth || currentHeight > opts.maxHeight`,
`none` otherwise. -/
def resizeAction (w h maxWidth maxHeight : ℕ) : Option (ℤ × ℤ) :=
  if maxWidth < w ∨ maxHeight < h then
    let ratio : ℚ := min ((maxWidth : ℚ) / w) ((maxHeight : ℚ) / h)
    some (jsRound (w * ratio), jsRound (h * ratio))
  else none

/-- The dimensions `compressImage` reports: the resize target when a resize
action was pushed, the intrinsic dimensions otherwise. -/
def compressImageDims (w h maxWidth maxHeight : ℕ) : ℤ × ℤ :=
  (resizeAction w h maxWidth maxHeight).getD (w, h)

/-! ## Binary encoder (base64 round-trip)

The pipeline reads the file as a base64 text string and decodes it
character-by-character into a byte sequence (`base64Decode` from the
`base-64` dependency followed by the `charCodeAt` loop building the
`Uint8Array`).  A JavaScript binary string of character codes 0–255 is
embedded as the `List ℕ` of those codes, which is exactly what the
`charCodeAt` loop reads off. -/

/-- The RFC 4648 base64 alphabet, as indexed by the encoder and searched by
the decoder. -/
def b64Alphabet : List Char :=
  ['A', 'B', 'C', 'D', 'E', 'F', 'G', 'H', 'I', 'J', 'K', 'L', 'M',
   'N', 'O', 'P', 'Q', 'R', 'S', 'T', 'U', 'V', 'W', 'X', 'Y', 'Z',
   'a', 'b', 'c', 'd', 'e', 'f', 'g', 'h', 'i', 'j', 'k', 'l', 'm',
   'n', 'o', 'p', 'q', 'r', 's', 't', 'u', 'v', 'w', 'x', 'y', 'z',
   '0', '1', '2', '3', '4', '5', '6', '7', '8', '9', '+', '/']

/-- Alphabet character for a 6-bit value. -/
def b64Char (n : ℕ) : Char := b64Alphabet.getD n 'A'

/-- Modelled from the spec: the character-to-sextet lookup performed by the
base64 decoder of the `base-64` dependency (not part of this repository),
which indexes each input character into the alphabet. -/
def b64Index (c : Char) : Option ℕ := b64Alphabet.findIdx? (· == c)

/-- Modelled from the spec: the base64 text encoding of a byte sequence
(the representation `FileSystem.readAsStringAsync(..., {encoding: 'base64'})`
hands the pipeline; the file system encoder is not part of this
repository).  Three bytes become four alphabet characters; a trailing one-
or two-byte group is padded with `=`. -/
def base64Encode : List ℕ → List Char
  | [] => []
  | [a] => [b64Char (a / 4), b64Char (a % 4 * 16), '=', '=']
  | [a, b] => [b64Char (a / 4), b64Char (a % 4 * 16 + b / 16), b64Char (b % 16 * 4), '=']
  | a :: b :: c :: rest =>
    b64Char (a / 4) :: b64Char (a % 4 * 16 + b / 16) ::
      b64Char (b % 16 * 4 + c / 64) :: b64Char (c % 64) :: base64Encode rest

/-- Modelled from the spec: the character-by-character base64 decode of the
`base-64` dependency composed with the repository's `charCodeAt` loop —
each four-character group is looked up in the alphabet and reassembled into
three bytes (two or one for a padded trailing group); a malformed character
makes the whole decode fail rather than be treated as empty input. -/
def base64Decode : List Char → Option (List ℕ)
  | [] => some []
  | c1 :: c2 :: c3 :: c4 :: rest =>
    (b64Index c1).bind fun s1 =>
    (b64Index c2).bind fun s2 =>
    if c3 = '=' ∧ c4 = '=' ∧ rest = [] then
      some [s1 * 4 + s2 / 16]
    else
      (b64Index c3).bind fun s3 =>
      if c4 = '=' ∧ rest = [] then
        some [s1 * 4 + s2 / 16, s2 % 16 * 16 + s3 / 4]
      else
        (b64Index c4).bind fun s4 =>
        (base64Decode rest).map fun bs =>
          (s1 * 4 + s2 / 16) :: (s2 % 16 * 16 + s3 / 4) :: (s3 % 4 * 64 + s4) :: bs
  | _ => none

/-! ## The pipeline (`uploadImageToSupabase`)

The full pipeline in source order: pre-validation of the URI (no size, no
MIME type), optional compression with fallback to the original URI,
extension/MIME derivation from the processed URI, base64 file read, size
estimation (`base64.length * 3 / 4`), size validation, storage-limit check,
storage-path generation, base64-to-bytes decoding, retried upload, signed
URL.  The external world is a record of deterministic outcomes; the run
returns the result together with the ordered trace of pipeline events.
`Date.now()` is called twice in the same expression sequence; both calls
are embedded as the single `nowTimestamp`. -/

/-- `fileName.replace(/[^a-zA-Z0-9-_]/g, '-')`. -/
def sanitizeFileName (s : String) : String :=
  String.mk (s.data.map fun c => if c.isAlphanum ∨ c = '-' ∨ c = '_' then c else '-')

/-- Observable pipeline steps, in execution order. -/
inductive PipeEvent where
  | preValidate
  | compressAttempt
  | readFile (uri : String)
  | sizeValidate (sizeBytes : ℚ)
  | quotaCheck
  | pathGenerated (path : String)
  | decodeBytes
  | storeCall (path : String) (bytes : List ℕ)
  | signUrl
  deriving DecidableEq

/-- The options record of `uploadImageToSupabase` (the progress callback is
purely observational and omitted). -/
structure UploadOptions where
  fileName : Option String
  bucket : String
  compress : Bool
  maxRetries : ℕ
  userId : String

/-- Deterministic outcomes of the external collaborators during one run:
file contents (as base64 text) per URI, the compressor's outcome, the two
ledger query results, the clock, the store's per-call outcomes, and the
signed-URL response (`none` = error). -/
structure UploadEnv where
  fileBase64 : String → List Char
  compressOutcome : Except String String
  ledgerImages : Option (List (Option ℕ))
  ledgerTools : Option (List (Option ℕ))
  nowTimestamp : ℕ
  storeSucceeds : ℕ → Bool
  signedUrl : Option String

/-- The distinct errors `uploadImageToSupabase` can throw, by branch. -/
inductive UploadError where
  | validationFailed (e : Option ValidationError)
  | storageLimitExceeded (m : Option StorageMessage)
  | decodeFailed
  | transferFailed (attempts : ℕ)
  | signedUrlFailed
  deriving DecidableEq

/-- The success record `{ url, size, compressed }`. -/
structure UploadResult where
  url : String
  size : ℚ
  compressed : Bool
  deriving DecidableEq

/-- The destination path the pipeline generates once, before the first
upload attempt: `${userId}/${sanitizedName}-${Date.now()}.${fileExtension}`,
with the sanitized caller-supplied base name or the `image-${Date.now()}`
default. -/
def storagePathOf (env : UploadEnv) (fileName : Option String) (userId : String)
    (processedUri : String) : String :=
  userId ++ "/" ++
    ((match fileName with
      | some f => sanitizeFileName f
      | none => "image-" ++ toString env.nowTimestamp) ++ "-" ++
      toString env.nowTimestamp ++ "." ++ extractExtensionFromUri processedUri)

/-- The byte buffer the decode stage hands to the uploader (empty only in
the unreachable case where the decode failed and the pipeline stopped). -/
def decodedBytesOf (env : UploadEnv) (processedUri : String) : List ℕ :=
  (base64Decode (env.fileBase64 processedUri)).getD []

/-- How many store calls the retry loop makes in a run that reaches it. -/
def storeCallCountOf (env : UploadEnv) (fileName : Option String) (userId : String)
    (maxRetries : ℕ) (processedUri : String) : ℕ :=
  (uploadWithRetry env.storeSucceeds
    ⟨storagePathOf env fileName userId processedUri, decodedBytesOf env processedUri⟩
    maxRetries).2.1.length

/-- The pipeline from the extension derivation onward (everything after the
compression stage), parameterised by the processed URI and whether
compression succeeded. -/
def pipelineRest (env : UploadEnv) (fileName : Option String) (userId : String)
    (maxRetries : ℕ) (processedUri : String) (wasCompressed : Bool) :
    Except UploadError UploadResult × List PipeEvent :=
  let fileExtension := extractExtensionFromUri processedUri
  let mimeType := getMimeType fileExtension
  let base64 := env.fileBase64 processedUri
  let estimatedSize : ℚ := (base64.length * 3) / 4
  let sizeValidation := validateImageFile processedUri (some estimatedSize) (some mimeType)
  if ¬ sizeValidation.valid then
    (.error (.validationFailed sizeValidation.error),
      [.readFile processedUri, .sizeValidate estimatedSize])
  else
    let usage := getUserStorageUsage env.ledgerImages env.ledgerTools
    let storageCheck := checkStorageLimit (usage.totalSizeBytes : ℚ) estimatedSize
    if ¬ storageCheck.allowed then
      (.error (.storageLimitExceeded storageCheck.message),
        [.readFile processedUri, .sizeValidate estimatedSize, .quotaCheck])
    else
      let storagePath := storagePathOf env fileName userId processedUri
      if (base64Decode base64).isSome then
        let bytes := (base64Decode base64).getD []
        let r := uploadWithRetry env.storeSucceeds ⟨storagePath, bytes⟩ maxRetries
        let evs := [PipeEvent.readFile processedUri, .sizeValidate estimatedSize,
          .quotaCheck, .pathGenerated storagePath, .decodeBytes] ++
          r.2.1.map fun c => PipeEvent.storeCall c.path c.bytes
        match r.1 with
        | .error attempts => (.error (.transferFailed attempts), evs)
        | .ok _ =>
          match env.signedUrl with
          | none => (.error .signedUrlFailed, evs ++ [.signUrl])
          | some url => (.ok ⟨url, estimatedSize, wasCompressed⟩, evs ++ [.signUrl])
      else
        (.error .decodeFailed,
          [.readFile processedUri, .sizeValidate estimatedSize, .quotaCheck,
            .pathGenerated storagePath, .decodeBytes])

/-- `uploadImageToSupabase(uri, options)`: pre-validation, then the optional
compression stage with its catch-and-fall-back, then `pipelineRest`. -/
def uploadImageToSupabase (env : UploadEnv) (uri : String) (opts : UploadOptions) :
    Except UploadError UploadResult × List PipeEvent :=
  let preValidation := validateImageFile uri none none
  if ¬ preValidation.valid then
    (.error (.validationFailed preValidation.error), [.preValidate])
  else
    let comp : String × Bool × List PipeEvent :=
      if opts.compress then
        match env.compressOutcome with
        | .ok compressedUri => (compressedUri, true, [.compressAttempt])
        | .error _ => (uri, false, [.compressAttempt])
      else (uri, false, [])
    let r := pipelineRest env opts.fileName opts.userId opts.maxRetries comp.1 comp.2.1
    (r.1, .preValidate :: (comp.2.2 ++ r.2))

/-! ## Destination-path stability (C9) -/

/-- Selects the path-generation and store-call events of a trace. -/
def isPathOrStore : PipeEvent → Bool
  | .pathGenerated _ => true
  | .storeCall _ _ => true
  | .preValidate => false
  | .compressAttempt => false
  | .readFile _ => false
  | .sizeValidate _ => false
  | .quotaCheck => false
  | .decodeBytes => false
  | .signUrl => false

/-- A 20 MB file (27962027 base64 characters, measuring 20971520.25 bytes)
whose compression also yields a 20 MB file, with everything else healthy. -/
def bigEnv : UploadEnv where
  fileBase64 := fun _ => List.replicate 27962027 'A'
  compressOutcome := .ok "compressed.jpg"
  ledgerImages := some []
  ledgerTools := some []
  nowTimestamp := 1700000000000
  storeSucceeds := fun _ => true
  signedUrl := some "https://example.com/signed"

/-- Standard options: compression on, three attempts. -/
def sampleOpts : UploadOptions where
  fileName := some "photo"
  bucket := "storage-images"
  compress := true
  maxRetries := 3
  userId := "user-1"

/-- A small healthy file whose compression stage throws. -/
def compressFailEnv : UploadEnv where
  fileBase64 := fun _ => base64Encode [10, 20, 30]
  compressOutcome := .error "corrupt image"
  ledgerImages := some []
  ledgerTools := some []
  nowTimestamp := 1700000000000
  storeSucceeds := fun _ => true
  signedUrl := some "https://example.com/signed"

/-- If the store fails every attempt in `[attempt, attempt+fuel)` then the loop
makes `fuel` calls, sleeps after every failed attempt except the last one
(`maxRetries - 1`), and ends in the error reporting `maxRetries`. -/
theorem retryGo_all_fail (store : ℕ → Bool) (pb : StoreCallRec) (maxRetries : ℕ) :
    ∀ fuel attempt, attempt + fuel = maxRetries →
      (∀ i, attempt ≤ i → i < maxRetries → store i = false) →
      retryGo store pb maxRetries attempt fuel =
        (.error maxRetries, List.replicate fuel pb,
          (List.range' attempt (fuel - 1)).map backoffDelay) := by
  intro fuel
  induction fuel with
  | zero => intro attempt _ _; simp [retryGo]
  | succ f ih =>
    intro attempt htot hfail
    have hs : store attempt = false := hfail attempt (Nat.le_refl _) (by omega)
    cases f with
    | zero =>
      have hnot : ¬ attempt < maxRetries - 1 := by omega
      simp [retryGo, hs, hnot]
    | succ f' =>
      have hrest := ih (attempt + 1) (by omega) (fun i hi hlt => hfail i (by omega) hlt)
      have hlt : attempt < maxRetries - 1 := by omega
      rw [retryGo]
      simp only [hs, Bool.false_eq_true, if_false, hrest, hlt, if_true,
        Nat.succ_sub_one]
      rw [List.range'_succ]
      simp [List.replicate_succ]

/-- If the store fails all attempts in `[attempt, k)` and succeeds at `k`
(with `k < maxRetries`), the loop returns success after `k - attempt + 1`
calls, sleeping after each of the failed attempts. -/
theorem retryGo_succeeds (store : ℕ → Bool) (pb : StoreCallRec) (maxRetries : ℕ) :
    ∀ fuel attempt k, attempt ≤ k → k < attempt + fuel → k < maxRetries →
      (∀ i, attempt ≤ i → i < k → store i = false) → store k = true →
      retryGo store pb maxRetries attempt fuel =
        (.ok (), List.replicate (k - attempt + 1) pb,
          (List.range' attempt (k - attempt)).map backoffDelay) := by
  intro fuel
  induction fuel with
  | zero => intro attempt k h1 h2 _ _ _; omega
  | succ f ih =>
    intro attempt k h1 h2 hk hfail hsucc
    rcases Nat.eq_or_lt_of_le h1 with heq | hlt
    · subst heq
      simp [retryGo, hsucc]
    · have hs : store attempt = false := hfail attempt (Nat.le_refl _) hlt
      have hrest := ih (attempt + 1) k (by omega) (by omega) hk
        (fun i hi hik => hfail i (by omega) hik) hsucc
      have hsl : attempt < maxRetries - 1 := by omega
      rw [retryGo]
      simp only [hs, Bool.false_eq_true, if_false, hrest, hsl, if_true]
      have h1 : k - attempt + 1 = (k - (attempt + 1) + 1) + 1 := by omega
      have h2 : k - attempt = (k - (attempt + 1)) + 1 := by omega
      rw [h1, h2, List.range'_succ]
      simp [List.replicate_succ]

/-- Every call record the retry loop produces is the fixed `pb` it was
given: the loop never varies the path or the byte buffer. -/
theorem retryGo_calls_const (store : ℕ → Bool) (pb : StoreCallRec) (maxRetries : ℕ) :
    ∀ fuel attempt c, c ∈ (retryGo store pb maxRetries attempt fuel).2.1 → c = pb := by
  intro fuel
  induction fuel with
  | zero => intro attempt c hc; simp [retryGo] at hc
  | succ f ih =>
    intro attempt c hc
    rw [retryGo] at hc
    by_cases hs : store attempt
    · simp [hs] at hc; exact hc
    · simp only [hs, Bool.false_eq_true, if_false, List.mem_cons] at hc
      rcases hc with h | h
      · exact h
      · exact ih (attempt + 1) c h

/-- C1. `uploadWithRetry` realises the spec's retry state machine: (i) if the
store fails the first `k < maxAttempts` calls and then succeeds, the result is
success after exactly `k + 1` store calls, with sleeps
`backoffDelay 0, …, backoffDelay (k-1)` between consecutive attempts and none
after the final one; (ii) if the store always fails, exactly `maxAttempts`
calls occur, the error reports `maxAttempts`, and sleeps follow every failed
attempt except the last; (iii) the delay after failed attempt `attempt` is
`min (1000 * 2^attempt) 5000` milliseconds. -/
theorem uploadWithRetry_spec (store : ℕ → Bool) (pb : StoreCallRec)
    (maxAttempts k : ℕ) (_hmax : 1 ≤ maxAttempts) :
    (k < maxAttempts → (∀ i, i < k → store i = false) → store k = true →
      uploadWithRetry store pb maxAttempts =
        (.ok (), List.replicate (k + 1) pb, (List.range k).map backoffDelay)) ∧
    ((∀ i, i < maxAttempts → store i = false) →
      uploadWithRetry store pb maxAttempts =
        (.error maxAttempts, List.replicate maxAttempts pb,
          (List.range (maxAttempts - 1)).map backoffDelay)) ∧
    (∀ a, backoffDelay a = min (1000 * 2 ^ a) 5000) := by
  refine ⟨?_, ?_, fun a => rfl⟩
  · intro hk hfail hsucc
    have := retryGo_succeeds store pb maxAttempts maxAttempts 0 k (Nat.zero_le k)
      (by omega) hk (fun i _ h => hfail i h) hsucc
    simpa [uploadWithRetry, List.range_eq_range'] using this
  · intro hfail
    have := retryGo_all_fail store pb maxAttempts maxAttempts 0 (by omega)
      (fun i _ h => hfail i h)
    simpa [uploadWithRetry, List.range_eq_range'] using this

/-- Witness for C1: a store that fails calls 0 and 1 and succeeds at call 2,
with `maxAttempts = 4`, yields success after 3 calls with backoff sleeps of
1000 ms and 2000 ms. -/
theorem uploadWithRetry_spec_witness :
    uploadWithRetry (fun i => decide (i = 2)) ⟨"p", [1]⟩ 4 =
      (.ok (), List.replicate 3 ⟨"p", [1]⟩, (List.range 2).map backoffDelay) :=
  (uploadWithRetry_spec (fun i => decide (i = 2)) ⟨"p", [1]⟩ 4 2 (by omega)).1
    (by omega)
    (fun i hi => by simp only [decide_eq_false_iff_not]; omega)
    (by simp)

/-- The extension extractor only ever returns members of the allow-list. -/
theorem extractExtensionFromUri_mem (uri : String) :
    allowedFormats.contains (extractExtensionFromUri uri) = true := by
  unfold extractExtensionFromUri
  dsimp only
  split
  · decide
  · split
    · assumption
    · decide

/-- Validation with no declared size and no declared MIME type succeeds for
every URI: the extractor's output is always in the allow-list. -/
theorem validateImageFile_no_size (uri : String) :
    validateImageFile uri none none = ⟨true, none⟩ := by
  unfold validateImageFile
  have h : extractExtensionFromUri uri ∈ allowedFormats := by
    simpa using extractExtensionFromUri_mem uri
  simp [h]

/-- C2 (code side). The extension check in `validateImageFile` is
unreachable: because `extractExtensionFromUri` coerces every unrecognized
trailing segment to `'jpg'`, validation with no declared size and no declared
MIME type succeeds for every URI — in particular for URIs whose trailing
segment has a disallowed extension, which the spec says must fail. -/
theorem validateImageFile_extension_check_unreachable (uri : String) :
    validateImageFile uri none none = ⟨true, none⟩ :=
  validateImageFile_no_size uri

/-- Concrete failing input for C2: `photo.txt` has the disallowed extension
`txt`, yet validation succeeds (the extractor coerces `txt` to `jpg`). -/
theorem validateImageFile_txt_passes :
    extractExtensionFromUri "photo.txt" = "jpg" ∧
    validateImageFile "photo.txt" none none = ⟨true, none⟩ := by
  constructor
  · decide
  · exact validateImageFile_no_size "photo.txt"

/-- `getMimeType` only ever produces one of four MIME strings. -/
theorem getMimeType_cases (extension : String) :
    getMimeType extension = "image/jpeg" ∨ getMimeType extension = "image/png" ∨
    getMimeType extension = "image/webp" ∨ getMimeType extension = "image/gif" := by
  unfold getMimeType
  dsimp only
  split_ifs <;> simp

/-- The MIME type derived from any extension is always in the MIME
allow-list after lowercasing (the four possible outputs are already
lowercase). -/
theorem getMimeType_allowed (extension : String) :
    allowedMimeTypes.contains (lowerStr (getMimeType extension)) = true := by
  rcases getMimeType_cases extension with h | h | h | h <;> rw [h] <;> decide

/-- C6. For all non-negative usage totals and candidate sizes,
`checkStorageLimit` returns `allowed = false` whenever the candidate would
push the total past the 100 MB ceiling, and — independently of remaining
quota — whenever the candidate alone exceeds the 10 MB per-file ceiling. -/
theorem checkStorageLimit_rejects (current candidate : ℚ)
    (_hcur : 0 ≤ current) (_hcand : 0 ≤ candidate) :
    (current + candidate > maxTotalStorageBytes →
      (checkStorageLimit current candidate).allowed = false) ∧
    (candidate > maxFileSizeBytes →
      (checkStorageLimit current candidate).allowed = false) := by
  constructor
  · intro hover
    unfold checkStorageLimit
    dsimp only
    split_ifs <;> rfl
  · intro hbig
    unfold checkStorageLimit
    dsimp only
    split_ifs <;> rfl

/-- Witness for C6: at 95 MB of usage a 200 MB candidate is rejected (it
exceeds both ceilings). -/
theorem checkStorageLimit_rejects_witness :
    ((95 * 1024 * 1024 : ℚ) + 200 * 1024 * 1024 > maxTotalStorageBytes →
      (checkStorageLimit (95 * 1024 * 1024) (200 * 1024 * 1024)).allowed = false) ∧
    ((200 * 1024 * 1024 : ℚ) > maxFileSizeBytes →
      (checkStorageLimit (95 * 1024 * 1024) (200 * 1024 * 1024)).allowed = false) :=
  checkStorageLimit_rejects (95 * 1024 * 1024) (200 * 1024 * 1024)
    (by norm_num) (by norm_num)

/-- Counterexample to C7 as stated: at 70 MB of usage a 15 MB candidate
takes the post-upload usage to 85 % — past the 80 % warning threshold and
under the 100 MB ceiling — yet `checkStorageLimit` rejects it
(`allowed = false`), because the candidate exceeds the 10 MB per-file
ceiling. -/
theorem checkStorageLimit_threshold_claim_false :
    ((70 * 1024 * 1024 + 15 * 1024 * 1024 : ℚ) / maxTotalStorageBytes * 100
        ≥ warningThresholdPercent) ∧
    ((70 * 1024 * 1024 + 15 * 1024 * 1024 : ℚ) ≤ maxTotalStorageBytes) ∧
    (checkStorageLimit (70 * 1024 * 1024) (15 * 1024 * 1024)).allowed = false := by
  refine ⟨by norm_num [maxTotalStorageBytes, warningThresholdPercent], by norm_num [maxTotalStorageBytes], ?_⟩
  unfold checkStorageLimit
  norm_num [maxFileSizeBytes]

/-- C7 (amended). Whenever the candidate passes the per-file ceiling and the
post-upload usage reaches the 80 % warning threshold without exceeding the
100 MB ceiling, `checkStorageLimit` allows the upload and attaches a
non-fatal warning carrying the remaining headroom. -/
theorem checkStorageLimit_warns (current candidate : ℚ)
    (hfile : candidate ≤ maxFileSizeBytes)
    (hceil : current + candidate ≤ maxTotalStorageBytes)
    (hthresh : (current + candidate) / maxTotalStorageBytes * 100 ≥ warningThresholdPercent) :
    (checkStorageLimit current candidate).allowed = true ∧
    (checkStorageLimit current candidate).warningMessage =
      some (.remainingHeadroom
        ((maxTotalStorageBytes - current - candidate) / (1024 * 1024))
        (100 - (current + candidate) / maxTotalStorageBytes * 100)) := by
  unfold checkStorageLimit
  dsimp only
  have h1 : ¬ candidate > maxFileSizeBytes := not_lt.mpr hfile
  have h2 : ¬ current + candidate > maxTotalStorageBytes := not_lt.mpr hceil
  rw [if_neg h1, if_neg h2, if_pos hthresh]
  exact ⟨rfl, rfl⟩

/-- Witness for C7 (the spec's own scenario): an owner at 95 MB of the
100 MB ceiling uploading a 3 MB candidate is allowed, with a warning about
the 2 MB of remaining headroom. -/
theorem checkStorageLimit_warns_witness :
    (checkStorageLimit (95 * 1024 * 1024) (3 * 1024 * 1024)).allowed = true ∧
    (checkStorageLimit (95 * 1024 * 1024) (3 * 1024 * 1024)).warningMessage =
      some (.remainingHeadroom
        ((maxTotalStorageBytes - 95 * 1024 * 1024 - 3 * 1024 * 1024) / (1024 * 1024))
        (100 - (95 * 1024 * 1024 + 3 * 1024 * 1024) / maxTotalStorageBytes * 100)) :=
  checkStorageLimit_warns (95 * 1024 * 1024) (3 * 1024 * 1024)
    (by norm_num [maxFileSizeBytes])
    (by norm_num [maxTotalStorageBytes])
    (by norm_num [maxTotalStorageBytes, warningThresholdPercent])

/-- C10. The quota check fails open on ledger errors: when both ledger
queries error (or the whole lookup throws), `getUserStorageUsage` reports
`totalSizeBytes = 0` rather than propagating the failure, so
`checkStorageLimit` sees zero usage and allows a candidate within the
per-file ceiling — even for an owner whose actual ledger rows sum past the
100 MB total ceiling, for whom intact queries would have rejected the same
candidate. -/
theorem getUserStorageUsage_fails_open (imageRows toolRows : List (Option ℕ))
    (candidate : ℚ)
    (hover : maxTotalStorageBytes < ((getUserStorageUsage (some imageRows) (some toolRows)).totalSizeBytes : ℚ))
    (hcand : 0 ≤ candidate) (hfile : candidate ≤ maxFileSizeBytes) :
    (getUserStorageUsage none none).totalSizeBytes = 0 ∧
    (checkStorageLimit ((getUserStorageUsage none none).totalSizeBytes : ℚ) candidate).allowed = true ∧
    (checkStorageLimit ((getUserStorageUsage (some imageRows) (some toolRows)).totalSizeBytes : ℚ) candidate).allowed = false := by
  refine ⟨rfl, ?_, ?_⟩
  · unfold checkStorageLimit
    dsimp only
    have h1 : ¬ candidate > maxFileSizeBytes := not_lt.mpr hfile
    have h2 : ¬ ((getUserStorageUsage none none).totalSizeBytes : ℚ) + candidate >
        maxTotalStorageBytes := by
      show ¬ ((0 : ℕ) : ℚ) + candidate > maxTotalStorageBytes
      rw [Nat.cast_zero, zero_add]
      have : maxFileSizeBytes ≤ maxTotalStorageBytes := by
        norm_num [maxFileSizeBytes, maxTotalStorageBytes]
      exact not_lt.mpr (le_trans hfile this)
    rw [if_neg h1, if_neg h2]
  · unfold checkStorageLimit
    dsimp only
    have h1 : ¬ candidate > maxFileSizeBytes := not_lt.mpr hfile
    have h2 : ((getUserStorageUsage (some imageRows) (some toolRows)).totalSizeBytes : ℚ) + candidate >
        maxTotalStorageBytes := lt_of_lt_of_le hover (by linarith)
    rw [if_neg h1, if_pos h2]

/-- Witness for C10: an owner whose one ledger row records 200 MB (double
the ceiling) is allowed to upload a 1 MB candidate when the ledger queries
error, while intact queries reject it. -/
theorem getUserStorageUsage_fails_open_witness :
    (getUserStorageUsage none none).totalSizeBytes = 0 ∧
    (checkStorageLimit ((getUserStorageUsage none none).totalSizeBytes : ℚ) (1024 * 1024)).allowed = true ∧
    (checkStorageLimit ((getUserStorageUsage (some [some 209715200]) (some [])).totalSizeBytes : ℚ) (1024 * 1024)).allowed = false :=
  getUserStorageUsage_fails_open [some 209715200] [] (1024 * 1024)
    (by norm_num [getUserStorageUsage, rowsSizeSum, maxTotalStorageBytes])
    (by norm_num) (by norm_num [maxFileSizeBytes])

/-- `Math.round` is within half of its argument. -/
theorem jsRound_close (q : ℚ) : |(jsRound q : ℚ) - q| ≤ 1 / 2 := by
  rw [abs_le]
  constructor
  · have := Int.lt_floor_add_one (q + 1 / 2)
    unfold jsRound
    push_cast at this ⊢
    linarith
  · have := Int.floor_le (q + 1 / 2)
    unfold jsRound
    push_cast at this ⊢
    linarith

/-- C5. `compressImage`'s geometry: (i) when both intrinsic dimensions are
within the profile's maxima, no resize action is pushed (the pass only
re-encodes); (ii) when either dimension exceeds its maximum, a single resize
by the uniform factor `min (maxWidth/w) (maxHeight/h)` is pushed, which
never upscales, and each output dimension is within half a pixel of the
exact uniform scaling — hence the output aspect ratio matches the input
aspect ratio up to that one-pixel rounding
(`|nw * h - nh * w| ≤ (w + h) / 2`). -/
theorem compressImage_resize_spec (w h maxWidth maxHeight : ℕ)
    (hw : 0 < w) (hh : 0 < h) :
    (w ≤ maxWidth ∧ h ≤ maxHeight → resizeAction w h maxWidth maxHeight = none) ∧
    (maxWidth < w ∨ maxHeight < h →
      ∃ nw nh : ℤ,
        resizeAction w h maxWidth maxHeight = some (nw, nh) ∧
        nw ≤ (w : ℤ) ∧ nh ≤ (h : ℤ) ∧
        |(nw : ℚ) - min ((maxWidth : ℚ) / w) ((maxHeight : ℚ) / h) * w| ≤ 1 / 2 ∧
        |(nh : ℚ) - min ((maxWidth : ℚ) / w) ((maxHeight : ℚ) / h) * h| ≤ 1 / 2 ∧
        |(nw : ℚ) * h - (nh : ℚ) * w| ≤ ((w : ℚ) + h) / 2) := by
  constructor
  · rintro ⟨h1, h2⟩
    unfold resizeAction
    rw [if_neg]
    push_neg
    exact ⟨h1, h2⟩
  · intro hex
    set r : ℚ := min ((maxWidth : ℚ) / w) ((maxHeight : ℚ) / h) with hr
    have hw0 : (0 : ℚ) < w := by exact_mod_cast hw
    have hh0 : (0 : ℚ) < h := by exact_mod_cast hh
    have hr1 : r < 1 := by
      rcases hex with hx | hx
      · have : (maxWidth : ℚ) / w < 1 := by
          rw [div_lt_one hw0]
          exact_mod_cast hx
        exact lt_of_le_of_lt (min_le_left _ _) this
      · have : (maxHeight : ℚ) / h < 1 := by
          rw [div_lt_one hh0]
          exact_mod_cast hx
        exact lt_of_le_of_lt (min_le_right _ _) this
    refine ⟨jsRound (w * r), jsRound (h * r), ?_, ?_, ?_, ?_, ?_, ?_⟩
    · unfold resizeAction
      rw [if_pos hex]
    · have hlt : (w : ℚ) * r + 1 / 2 < (((w : ℤ) + 1 : ℤ) : ℚ) := by
        have : (w : ℚ) * r < w := by nlinarith
        push_cast
        linarith
      exact Int.lt_add_one_iff.mp (Int.floor_lt.mpr hlt)
    · have hlt : (h : ℚ) * r + 1 / 2 < (((h : ℤ) + 1 : ℤ) : ℚ) := by
        have : (h : ℚ) * r < h := by nlinarith
        push_cast
        linarith
      exact Int.lt_add_one_iff.mp (Int.floor_lt.mpr hlt)
    · have := jsRound_close ((w : ℚ) * r)
      rw [mul_comm] at this
      convert this using 2
      ring
    · have := jsRound_close ((h : ℚ) * r)
      rw [mul_comm] at this
      convert this using 2
      ring
    · have h1 := jsRound_close ((w : ℚ) * r)
      have h2 := jsRound_close ((h : ℚ) * r)
      rw [abs_le] at h1 h2 ⊢
      constructor <;> nlinarith [h1.1, h1.2, h2.1, h2.2, hw0.le, hh0.le]

/-- Witness for C5: a 4000×3000 image against the pipeline's 1920×1920
profile is resized (ratio 0.48) to 1920×1440, never upscaled, within half a
pixel per dimension of the exact uniform scaling. -/
theorem compressImage_resize_spec_witness :
    (4000 ≤ 1920 ∧ 3000 ≤ 1920 → resizeAction 4000 3000 1920 1920 = none) ∧
    (1920 < 4000 ∨ 1920 < 3000 →
      ∃ nw nh : ℤ,
        resizeAction 4000 3000 1920 1920 = some (nw, nh) ∧
        nw ≤ (4000 : ℤ) ∧ nh ≤ (3000 : ℤ) ∧
        |(nw : ℚ) - min ((1920 : ℚ) / 4000) ((1920 : ℚ) / 3000) * 4000| ≤ 1 / 2 ∧
        |(nh : ℚ) - min ((1920 : ℚ) / 4000) ((1920 : ℚ) / 3000) * 3000| ≤ 1 / 2 ∧
        |(nw : ℚ) * 3000 - (nh : ℚ) * 4000| ≤ ((4000 : ℚ) + 3000) / 2) := by
  have := compressImage_resize_spec 4000 3000 1920 1920 (by norm_num) (by norm_num)
  exact_mod_cast this

/-- Looking an alphabet character back up recovers its sextet. -/
theorem b64Index_b64Char : ∀ i : Fin 64, b64Index (b64Char i.val) = some i.val := by
  decide

/-- No alphabet character is the padding character. -/
theorem b64Char_ne_pad : ∀ i : Fin 64, b64Char i.val ≠ '=' := by
  decide

/-- C8. Round-trip: decoding the base64 encoding of any byte sequence (all
values below 256) via the character-by-character decoder reproduces the
bytes exactly — for the empty buffer, single bytes, and buffers of every
larger size. -/
theorem base64_roundtrip : ∀ l : List ℕ, (∀ b ∈ l, b < 256) →
    base64Decode (base64Encode l) = some l
  | [], _ => by simp [base64Encode, base64Decode]
  | [a], h => by
    have ha : a < 256 := h a (by simp)
    have h1 : b64Index (b64Char (a / 4)) = some (a / 4) :=
      b64Index_b64Char ⟨_, by omega⟩
    have h2 : b64Index (b64Char (a % 4 * 16)) = some (a % 4 * 16) :=
      b64Index_b64Char ⟨_, by omega⟩
    simp only [base64Encode, base64Decode, h1, h2, Option.some_bind]
    rw [if_pos (by simp)]
    simp only [Option.some.injEq, List.cons.injEq, and_true]
    omega
  | [a, b], h => by
    have ha : a < 256 := h a (by simp)
    have hb : b < 256 := h b (by simp)
    have h1 : b64Index (b64Char (a / 4)) = some (a / 4) :=
      b64Index_b64Char ⟨_, by omega⟩
    have h2 : b64Index (b64Char (a % 4 * 16 + b / 16)) = some (a % 4 * 16 + b / 16) :=
      b64Index_b64Char ⟨_, by omega⟩
    have h3 : b64Index (b64Char (b % 16 * 4)) = some (b % 16 * 4) :=
      b64Index_b64Char ⟨_, by omega⟩
    have hne3 : b64Char (b % 16 * 4) ≠ '=' := b64Char_ne_pad ⟨_, by omega⟩
    simp only [base64Encode, base64Decode, h1, h2, h3, Option.some_bind]
    rw [if_neg (fun hcon => hne3 hcon.1), if_pos (by simp)]
    simp only [Option.some.injEq, List.cons.injEq, and_true]
    omega
  | a :: b :: c :: rest, h => by
    have ha : a < 256 := h a (by simp)
    have hb : b < 256 := h b (by simp)
    have hc : c < 256 := h c (by simp)
    have ih := base64_roundtrip rest (fun x hx => h x (by simp [hx]))
    have h1 : b64Index (b64Char (a / 4)) = some (a / 4) :=
      b64Index_b64Char ⟨_, by omega⟩
    have h2 : b64Index (b64Char (a % 4 * 16 + b / 16)) = some (a % 4 * 16 + b / 16) :=
      b64Index_b64Char ⟨_, by omega⟩
    have h3 : b64Index (b64Char (b % 16 * 4 + c / 64)) = some (b % 16 * 4 + c / 64) :=
      b64Index_b64Char ⟨_, by omega⟩
    have h4 : b64Index (b64Char (c % 64)) = some (c % 64) :=
      b64Index_b64Char ⟨_, by omega⟩
    have hne3 : b64Char (b % 16 * 4 + c / 64) ≠ '=' := b64Char_ne_pad ⟨_, by omega⟩
    have hne4 : b64Char (c % 64) ≠ '=' := b64Char_ne_pad ⟨_, by omega⟩
    show base64Decode (base64Encode (a :: b :: c :: rest)) = some (a :: b :: c :: rest)
    rw [base64Encode, base64Decode]
    simp only [h1, h2, h3, h4, Option.some_bind]
    rw [if_neg (fun hcon => hne3 hcon.1), if_neg (fun hcon => hne4 hcon.1), ih]
    simp only [Option.map_some', Option.some.injEq, List.cons.injEq]
    refine ⟨by omega, by omega, by omega, trivial⟩

/-- Witness for C8: the three-byte buffer `[255, 0, 10]` survives the
encode/decode round-trip. -/
theorem base64_roundtrip_witness :
    (∀ b ∈ [255, 0, 10], b < 256) ∧
    base64Decode (base64Encode [255, 0, 10]) = some [255, 0, 10] :=
  ⟨by decide, base64_roundtrip [255, 0, 10] (by decide)⟩

/-- Whatever branch `pipelineRest` takes, its event trace starts with the
base64 read of the processed URI. -/
theorem pipelineRest_events_head (env : UploadEnv) (fileName : Option String)
    (userId : String) (maxRetries : ℕ) (p : String) (w : Bool) :
    ∃ tail, (pipelineRest env fileName userId maxRetries p w).2 =
      PipeEvent.readFile p :: tail := by
  unfold pipelineRest
  dsimp only
  split_ifs <;> (repeat' split) <;> exact ⟨_, rfl⟩

/-- The only branch of `pipelineRest` that returns a success record is the
final one, and it stores the `wasCompressed` flag it was given in the
`compressed` field. -/
theorem pipelineRest_ok_compressed (env : UploadEnv) (fileName : Option String)
    (userId : String) (maxRetries : ℕ) (p : String) (w : Bool)
    (r : UploadResult)
    (h : (pipelineRest env fileName userId maxRetries p w).1 = .ok r) :
    r.compressed = w := by
  unfold pipelineRest at h
  dsimp only at h
  split_ifs at h <;> (repeat' split at h) <;> dsimp only at h <;>
    first
    | exact Except.noConfusion h
    | (rw [Except.ok.injEq] at h; rw [← h])

/-- C4. Compression failures never propagate: when compression is enabled
and `compressImage` throws, the pipeline produces exactly the result it
would produce with compression disabled (no error is introduced), the
remaining stages read the original uncompressed URI, and any success record
carries `compressed = false`. -/
theorem compression_failure_recovered (env : UploadEnv) (uri : String)
    (opts : UploadOptions) (msg : String)
    (hc : opts.compress = true) (he : env.compressOutcome = .error msg) :
    (uploadImageToSupabase env uri opts).1 =
      (uploadImageToSupabase env uri { opts with compress := false }).1 ∧
    PipeEvent.readFile uri ∈ (uploadImageToSupabase env uri opts).2 ∧
    (∀ r, (uploadImageToSupabase env uri opts).1 = .ok r → r.compressed = false) := by
  have hpre := validateImageFile_no_size uri
  refine ⟨?_, ?_, ?_⟩
  · unfold uploadImageToSupabase
    rw [hpre, hc, he]
    simp
  · unfold uploadImageToSupabase
    rw [hpre, hc, he]
    obtain ⟨tail, htail⟩ :=
      pipelineRest_events_head env opts.fileName opts.userId opts.maxRetries uri false
    simp [htail]
  · intro r hr
    unfold uploadImageToSupabase at hr
    rw [hpre, hc, he] at hr
    simp only at hr
    exact pipelineRest_ok_compressed env opts.fileName opts.userId opts.maxRetries
      uri false r hr

/-- The retry loop's call list is a constant repetition of the single
path-and-bytes pair it was given. -/
theorem uploadWithRetry_calls_replicate (store : ℕ → Bool) (pb : StoreCallRec)
    (maxRetries : ℕ) :
    (uploadWithRetry store pb maxRetries).2.1 =
      List.replicate (uploadWithRetry store pb maxRetries).2.1.length pb :=
  List.eq_replicate_of_mem fun c hc =>
    retryGo_calls_const store pb maxRetries maxRetries 0 c hc

/-- The path-and-store skeleton of a `pipelineRest` trace: either the run
stopped before path generation, or one path-generation event is followed by
zero or more store calls, all with that same path and one fixed byte
buffer. -/
theorem pipelineRest_filter (env : UploadEnv) (fileName : Option String)
    (userId : String) (maxRetries : ℕ) (p : String) (w : Bool) :
    (pipelineRest env fileName userId maxRetries p w).2.filter isPathOrStore = [] ∨
    (pipelineRest env fileName userId maxRetries p w).2.filter isPathOrStore =
      [PipeEvent.pathGenerated (storagePathOf env fileName userId p)] ∨
    (pipelineRest env fileName userId maxRetries p w).2.filter isPathOrStore =
      PipeEvent.pathGenerated (storagePathOf env fileName userId p) ::
        List.replicate (storeCallCountOf env fileName userId maxRetries p)
          (PipeEvent.storeCall (storagePathOf env fileName userId p)
            (decodedBytesOf env p)) := by
  unfold pipelineRest
  dsimp only
  split_ifs
  all_goals try (left; rfl)
  all_goals try (right; left; rfl)
  all_goals repeat' split
  all_goals
    (right; right
     rw [uploadWithRetry_calls_replicate, List.map_replicate]
     simp [isPathOrStore, List.filter_replicate, storeCallCountOf, decodedBytesOf])

/-- C9. In every run of the pipeline, the destination storage path is
generated at most once and before any store call, and every store call of
the run uses that same path and the same byte buffer: restricted to
path-generation and store-call events, the trace is either empty (the run
stopped earlier) or exactly one `pathGenerated p` followed by a repetition
of the identical `storeCall p bytes`. -/
theorem storagePath_generated_once (env : UploadEnv) (uri : String)
    (opts : UploadOptions) :
    (uploadImageToSupabase env uri opts).2.filter isPathOrStore = [] ∨
    ∃ path bs n, (uploadImageToSupabase env uri opts).2.filter isPathOrStore =
      PipeEvent.pathGenerated path :: List.replicate n (PipeEvent.storeCall path bs) := by
  unfold uploadImageToSupabase
  dsimp only
  split_ifs
  all_goals try (left; rfl)
  all_goals rcases env.compressOutcome with msg | cUri
  all_goals dsimp only
  all_goals simp only [List.cons_append, List.nil_append, List.filter_cons,
    isPathOrStore, Bool.false_eq_true, if_false]
  all_goals first
    | (rcases pipelineRest_filter env opts.fileName opts.userId opts.maxRetries cUri true
          with h | h | h
       · exact Or.inl h
       · obtain ⟨sp, hsp⟩ : ∃ sp, _ = [PipeEvent.pathGenerated sp] := ⟨_, h⟩
         exact Or.inr ⟨sp, [], 0, by rw [hsp, List.replicate_zero]⟩
       · exact Or.inr ⟨_, _, _, h⟩)
    | (rcases pipelineRest_filter env opts.fileName opts.userId opts.maxRetries uri false
          with h | h | h
       · exact Or.inl h
       · obtain ⟨sp, hsp⟩ : ∃ sp, _ = [PipeEvent.pathGenerated sp] := ⟨_, h⟩
         exact Or.inr ⟨sp, [], 0, by rw [hsp, List.replicate_zero]⟩
       · exact Or.inr ⟨_, _, _, h⟩)

/-! ## Oversized candidates (C3) -/

/-- When the declared size exceeds the 10 MB ceiling, size validation fails
with the `File too large` error (extension and MIME checks pass for any URI
and any pipeline-derived MIME type). -/
theorem validateImageFile_tooLarge (p mime : String) (s : ℚ)
    (hmime : allowedMimeTypes.contains (lowerStr mime) = true)
    (hs : maxSizeBytes < s) :
    validateImageFile p (some s) (some mime) = ⟨false, some (.tooLarge s)⟩ := by
  unfold validateImageFile
  have hext : extractExtensionFromUri p ∈ allowedFormats := by
    simpa using extractExtensionFromUri_mem p
  have hs0 : ¬ s = 0 := by
    intro h0
    rw [h0] at hs
    norm_num [maxSizeBytes] at hs
  have hmime' : lowerStr mime ∈ allowedMimeTypes := by simpa using hmime
  simp [hext, hmime', hs0, hs]

/-- Core of C3: when every file the pipeline could read materializes to more
than the 10 MB ceiling, the run ends in the `too large` validation failure
with the measured size, and neither the byte-buffer construction nor any
store call ever happens. -/
theorem oversized_core (env : UploadEnv) (uri : String) (opts : UploadOptions)
    (hbig : ∀ u, maxSizeBytes < ((env.fileBase64 u).length : ℚ) * 3 / 4) :
    (∃ q, (uploadImageToSupabase env uri opts).1 =
        .error (.validationFailed (some (.tooLarge q))) ∧ maxSizeBytes < q) ∧
    PipeEvent.decodeBytes ∉ (uploadImageToSupabase env uri opts).2 ∧
    (∀ p b, PipeEvent.storeCall p b ∉ (uploadImageToSupabase env uri opts).2) := by
  have key : ∀ p w, pipelineRest env opts.fileName opts.userId opts.maxRetries p w =
      (.error (.validationFailed (some (.tooLarge (((env.fileBase64 p).length : ℚ) * 3 / 4)))),
        [.readFile p, .sizeValidate (((env.fileBase64 p).length : ℚ) * 3 / 4)]) := by
    intro p w
    unfold pipelineRest
    dsimp only
    rw [validateImageFile_tooLarge p _ _ (getMimeType_allowed _) (hbig p)]
    simp
  have hpre := validateImageFile_no_size uri
  unfold uploadImageToSupabase
  rw [hpre, if_neg (fun hcon => hcon rfl)]
  dsimp only
  by_cases hc : opts.compress
  · rw [if_pos hc]
    rcases env.compressOutcome with msg | cUri
    · dsimp only
      rw [key]
      exact ⟨⟨((env.fileBase64 uri).length : ℚ) * 3 / 4, rfl, hbig uri⟩,
        by simp, fun p b => by simp⟩
    · dsimp only
      rw [key]
      exact ⟨⟨((env.fileBase64 cUri).length : ℚ) * 3 / 4, rfl, hbig cUri⟩,
        by simp, fun p b => by simp⟩
  · rw [if_neg hc]
    dsimp only
    rw [key]
    exact ⟨⟨((env.fileBase64 uri).length : ℚ) * 3 / 4, rfl, hbig uri⟩,
      by simp, fun p b => by simp⟩

/-- With compression enabled, the compression stage always runs (once
pre-validation passes, which it always does). -/
theorem compressAttempt_mem (env : UploadEnv) (uri : String) (opts : UploadOptions)
    (hc : opts.compress = true) :
    PipeEvent.compressAttempt ∈ (uploadImageToSupabase env uri opts).2 := by
  have hpre := validateImageFile_no_size uri
  unfold uploadImageToSupabase
  rw [hpre, if_neg (fun hcon => hcon rfl)]
  dsimp only
  rw [if_pos hc]
  rcases env.compressOutcome with msg | cUri <;> simp

/-- C3 (amended). An oversized candidate — one whose materialized base64
read measures over the 10 MB ceiling — is rejected by the post-read size
validation: the pipeline ends in a `too large` validation failure and
performs no byte-buffer construction and no store call.  (The rejection
happens after the compression stage and the base64 read, not before them:
the pre-compression validation call receives no size.) -/
theorem oversized_rejected_before_byteBuffer (env : UploadEnv) (uri : String)
    (opts : UploadOptions)
    (hbig : ∀ u, maxSizeBytes < ((env.fileBase64 u).length : ℚ) * 3 / 4) :
    (∃ q, (uploadImageToSupabase env uri opts).1 =
        .error (.validationFailed (some (.tooLarge q))) ∧ maxSizeBytes < q) ∧
    PipeEvent.decodeBytes ∉ (uploadImageToSupabase env uri opts).2 ∧
    (∀ p b, PipeEvent.storeCall p b ∉ (uploadImageToSupabase env uri opts).2) :=
  oversized_core env uri opts hbig

/-- Counterexample to C3 as stated: on a 20 MB candidate with compression
enabled, the pipeline runs the compression stage (a `compressAttempt` event
occurs) and only afterwards rejects with the validation failure — so
compression work is attempted for an oversized input, contradicting
"no compression … happens for such an input". -/
theorem oversized_compressed_counterexample :
    PipeEvent.compressAttempt ∈ (uploadImageToSupabase bigEnv "photo.jpg" sampleOpts).2 ∧
    (∃ q, (uploadImageToSupabase bigEnv "photo.jpg" sampleOpts).1 =
      .error (.validationFailed (some (.tooLarge q)))) := by
  have hb : ∀ u, maxSizeBytes < ((bigEnv.fileBase64 u).length : ℚ) * 3 / 4 := by
    intro u
    show maxSizeBytes < ((List.replicate 27962027 'A').length : ℚ) * 3 / 4
    rw [List.length_replicate]
    norm_num [maxSizeBytes]
  have hcore := oversized_core bigEnv "photo.jpg" sampleOpts hb
  exact ⟨compressAttempt_mem bigEnv "photo.jpg" sampleOpts rfl,
    hcore.1.elim fun q hq => ⟨q, hq.1⟩⟩

/-- Witness for C3 (amended): the 20 MB environment is rejected as a `too
large` validation failure with no byte-buffer construction and no store
call. -/
theorem oversized_rejected_before_byteBuffer_witness :
    (∀ u, maxSizeBytes < ((bigEnv.fileBase64 u).length : ℚ) * 3 / 4) ∧
    ((∃ q, (uploadImageToSupabase bigEnv "photo.jpg" sampleOpts).1 =
        .error (.validationFailed (some (.tooLarge q))) ∧ maxSizeBytes < q) ∧
     PipeEvent.decodeBytes ∉ (uploadImageToSupabase bigEnv "photo.jpg" sampleOpts).2 ∧
     (∀ p b, PipeEvent.storeCall p b ∉ (uploadImageToSupabase bigEnv "photo.jpg" sampleOpts).2)) := by
  have hb : ∀ u, maxSizeBytes < ((bigEnv.fileBase64 u).length : ℚ) * 3 / 4 := by
    intro u
    show maxSizeBytes < ((List.replicate 27962027 'A').length : ℚ) * 3 / 4
    rw [List.length_replicate]
    norm_num [maxSizeBytes]
  exact ⟨hb, oversized_rejected_before_byteBuffer bigEnv "photo.jpg" sampleOpts hb⟩

/-- Witness for C4: with a compressor that throws on a healthy small file,
the run equals the compression-disabled run, reads the original URI, and
any success reports `compressed = false`. -/
theorem compression_failure_recovered_witness :
    sampleOpts.compress = true ∧
    compressFailEnv.compressOutcome = .error "corrupt image" ∧
    ((uploadImageToSupabase compressFailEnv "a.jpg" sampleOpts).1 =
      (uploadImageToSupabase compressFailEnv "a.jpg" { sampleOpts with compress := false }).1 ∧
     PipeEvent.readFile "a.jpg" ∈ (uploadImageToSupabase compressFailEnv "a.jpg" sampleOpts).2 ∧
     (∀ r, (uploadImageToSupabase compressFailEnv "a.jpg" sampleOpts).1 = .ok r →
        r.compressed = false)) :=
  ⟨rfl, rfl,
    compression_failure_recovered compressFailEnv "a.jpg" sampleOpts "corrupt image" rfl rfl⟩

end Rutinutl
